import Mathlib

/-!
Verification of the media-type DSL (`design/dsl/media_type.go`).

The file shallowly embeds the DSL functions `MediaType`, `Media`, `View`,
`Link` and `CollectionOf` together with the slice of the `design` data model
they manipulate. Go maps are embedded as association lists with
first-match lookup and replace-or-append insertion; Go's `nil` pointers
become `Option`; the process-wide design state (`design.Design.MediaTypes`
and the `mediaTypeCount` counter) is threaded explicitly; `ReportError`
becomes an accumulated list of diagnostics.

External collaborators (the `mime` package, `inflect.Camelize`, the
declarative-execution engine and the `design` package types, none of which
are part of the supplied source) are modelled from the spec, as marked on
each definition.
-/

namespace Goa

/-- First-match lookup in an association list, embedding a Go map read
(`v, ok := m[k]`). -/
def alookup {α : Type} : List (String × α) → String → Option α
  | [], _ => none
  | (k', v) :: rest, k => if k' == k then some v else alookup rest k

/-- Replace-or-append insertion in an association list, embedding a Go map
write (`m[k] = v`). -/
def ainsert {α : Type} : List (String × α) → String → α → List (String × α)
  | [], k, v => [(k, v)]
  | (k', v') :: rest, k, v =>
    if k' == k then (k, v) :: rest else (k', v') :: ainsert rest k v

/-- Diagnostics recorded through `ReportError`, one constructor per call
site / spec taxonomy entry (§7). -/
inductive DSLError : Type where
  /-- "invalid media type identifier %#v: %s" — `InvalidIdentifier`. -/
  | invalidIdentifier (id : String)
  /-- "media type %#v is defined twice" — `DuplicateDefinition` (identifier). -/
  | duplicateMediaType (id : String)
  /-- "multiple definitions for view %#v in media type %#v" —
  `DuplicateDefinition` (view name). -/
  | duplicateView (name typeName : String)
  /-- "duplicate definition for link %#v" — `DuplicateDefinition` (link name). -/
  | duplicateLink (name : String)
  /-- "cannot define view on non object and non collection media types" —
  `UnsupportedViewTarget`. -/
  | unsupportedViewTarget
  /-- "unknown view %#v" — `UnknownView`. -/
  | unknownView (name : String)
  /-- "unknown attribute %#v" — `UnknownAttribute`. -/
  | unknownAttribute (name : String)
  /-- "invalid syntax in Link definition for %#v, ..." — `InvalidLinkSyntax`. -/
  | invalidLinkUsage (name : String)
  /-- "media type must be a string or a pointer to MediaTypeDefinition, ..." —
  `InvalidArgument`. -/
  | invalidMediaArgument
  deriving DecidableEq, Repr

/-- `design.LinkDefinition`: name, view used to render the link, owning media
type. Modelled from the spec (§3): the `Parent` back-reference is embedded as
the owner's canonical identifier, since identifiers uniquely key the registry. -/
structure LinkDefinition : Type where
  Name : String
  View : String
  Parent : String
  deriving DecidableEq, Repr

mutual

/-- `design.DataType`. Modelled from the spec (§3): a semantic type is a
scalar, an object-of-attributes, an array-of-element (whose `ElemType`
pointer may be nil), or a media type used as a type. -/
inductive DataType : Type where
  | primitive (name : String) : DataType
  | object (attrs : List (String × AttributeDefinition)) : DataType
  | array (elemType : Option AttributeDefinition) : DataType
  | mediaType (mt : MediaTypeDefinition) : DataType

/-- `design.AttributeDefinition`: its semantic `Type` and the view-name
override `View` used when the attribute is rendered inside a view. -/
inductive AttributeDefinition : Type where
  | mk (type : DataType) (view : Option String) : AttributeDefinition

/-- `design.ViewDefinition`: the attribute listing the rendered names, the
view's name, and the owning media type (embedded as its identifier). -/
inductive ViewDefinition : Type where
  | mk (attr : AttributeDefinition) (name : String) (parent : String) :
      ViewDefinition

/-- `design.MediaTypeDefinition`: type name, canonical identifier, root
attribute (the embedded `AttributeDefinition`), view map and link map. -/
inductive MediaTypeDefinition : Type where
  | mk (typeName identifier : String) (attr : AttributeDefinition)
      (views : List (String × ViewDefinition))
      (links : List (String × LinkDefinition)) : MediaTypeDefinition

end

def AttributeDefinition.type : AttributeDefinition → DataType
  | .mk t _ => t

def AttributeDefinition.view : AttributeDefinition → Option String
  | .mk _ v => v

def ViewDefinition.attr : ViewDefinition → AttributeDefinition
  | .mk a _ _ => a

def ViewDefinition.name : ViewDefinition → String
  | .mk _ n _ => n

def ViewDefinition.parent : ViewDefinition → String
  | .mk _ _ p => p

def MediaTypeDefinition.typeName : MediaTypeDefinition → String
  | .mk tn _ _ _ _ => tn

def MediaTypeDefinition.identifier : MediaTypeDefinition → String
  | .mk _ id _ _ _ => id

def MediaTypeDefinition.attr : MediaTypeDefinition → AttributeDefinition
  | .mk _ _ a _ _ => a

def MediaTypeDefinition.views : MediaTypeDefinition → List (String × ViewDefinition)
  | .mk _ _ _ vs _ => vs

def MediaTypeDefinition.links : MediaTypeDefinition → List (String × LinkDefinition)
  | .mk _ _ _ _ ls => ls

/-- Replace a media type's view map (Go mutates the `Views` field in place). -/
def MediaTypeDefinition.withViews :
    MediaTypeDefinition → List (String × ViewDefinition) → MediaTypeDefinition
  | .mk tn id a _ ls, vs => .mk tn id a vs ls

/-- Replace a media type's link map (Go mutates the `Links` field in place). -/
def MediaTypeDefinition.withLinks :
    MediaTypeDefinition → List (String × LinkDefinition) → MediaTypeDefinition
  | .mk tn id a vs _, ls => .mk tn id a vs ls

/-- `DataType.ToObject`. Modelled from the spec (§3): yields the attribute
map of an object-of-attributes; a media type used as a type answers for its
root attribute's type; every other kind yields nil. -/
def DataType.ToObject : DataType → Option (List (String × AttributeDefinition))
  | .object o => some o
  | .mediaType (.mk _ _ (.mk t _) _ _) => t.ToObject
  | _ => none

/-- `DataType.ToArray`, exposing the array's `ElemType`. Modelled from the
spec (§3): `some e` for an array-of-element, with delegation through a media
type used as a type; `none` for every other kind. -/
def DataType.ToArray : DataType → Option (Option AttributeDefinition)
  | .array e => some e
  | .mediaType (.mk _ _ (.mk t _) _ _) => t.ToArray
  | _ => none

/-- `DataType.IsObject`. Modelled from the spec (§3). -/
def DataType.IsObject (t : DataType) : Bool := t.ToObject.isSome

/-- `DataType.IsArray`. Modelled from the spec (§3). -/
def DataType.IsArray (t : DataType) : Bool := t.ToArray.isSome

/-! ## The MIME black box (§1, §4.1)

`mime.ParseMediaType` and `mime.FormatMediaType` are external collaborators:
the spec assumes them as a black box that splits/joins
`type/subtype;param=value` strings and fails on malformed input. The
operations below therefore take the parser's outcome as an explicit input,
and the formatter is modelled concretely from the spec's description. -/

/-- Media-type parameters: a Go `map[string]string`. -/
abbrev Params : Type := List (String × String)

/-- Modelled from the spec: the outcome of the black-box
`mime.ParseMediaType`. On success it yields the base `type/subtype` string
and the parameter map; on failure it yields its zero values (empty string,
nil map) together with the error. -/
inductive ParseOut : Type where
  | ok (mediatype : String) (params : Params)
  | err

/-- The base string and parameter map a `ParseOut` hands to the caller
(the Go zero values on error). -/
def ParseOut.components : ParseOut → String × Params × Bool
  | .ok mediatype params => (mediatype, params, false)
  | .err => ("", [], true)

/-- Split a character list at every occurrence of a separator, embedding
`strings.Split` for a one-character separator (always at least one piece). -/
def splitChar (sep : Char) : List Char → List (List Char)
  | [] => [[]]
  | c :: rest =>
    if c == sep then [] :: splitChar sep rest
    else
      match splitChar sep rest with
      | [] => [[c]]
      | w :: ws => (c :: w) :: ws

/-- Modelled from the spec: validity of a base media-type string for the
black-box formatter — exactly one slash separating two nonempty parts. -/
def validBase (s : String) : Bool :=
  match splitChar '/' s.data with
  | [a, b] => !a.isEmpty && !b.isEmpty
  | _ => false

/-- Insert a parameter into a list sorted by attribute name. -/
def insertSorted (p : String × String) :
    List (String × String) → List (String × String)
  | [] => [p]
  | q :: rest => if p.1 ≤ q.1 then p :: q :: rest else q :: insertSorted p rest

/-- Sort parameters by attribute name, giving the formatter's deterministic
parameter order (§3). -/
def sortParams : List (String × String) → List (String × String)
  | [] => []
  | p :: rest => insertSorted p (sortParams rest)

/-- Modelled from the spec: the black-box `mime.FormatMediaType` joins the
base string with `;attr=value` parameters in deterministic (sorted) order,
and yields the empty string on a malformed base. -/
def formatMediaType (mediatype : String) (params : Params) : String :=
  if validBase mediatype then
    mediatype ++ String.join ((sortParams params).map (fun p => ";" ++ p.1 ++ "=" ++ p.2))
  else ""

/-- Capitalize the first character of a word. -/
def capitalizeWord : List Char → List Char
  | [] => []
  | c :: rest => c.toUpper :: rest

/-- Modelled from the spec (§4.1): `inflect.Camelize` camel-cases a word by
capitalizing each underscore-separated segment. -/
def camelize (s : String) : String :=
  String.mk (((splitChar '_' s.data).map capitalizeWord).flatten)

/-! ## Identifier normalization (`MediaType`, lines 66–81) -/

/-- `media_type.go:71-74`: append the default subtype `json` when the base
string contains no slash. -/
def addDefaultSubtype (mediatype : String) : String :=
  if mediatype.data.contains '/' then mediatype else mediatype ++ "/json"

/-- `media_type.go:71-75`: the canonical identifier — default the subtype,
then reformat base and parameters through the MIME formatter. -/
def normalizeIdentifier (mediatype : String) (params : Params) : String :=
  formatMediaType (addDefaultSubtype mediatype) params

/-- `media_type.go:76-78`: candidate type name — last dot-delimited segment,
then the part before any slash, camel-cased. -/
def deriveTypeName (identifier : String) : String :=
  let elems := splitChar '.' identifier.data
  let elems2 := splitChar '/' (elems.getLastD [])
  camelize (String.mk (elems2.headD []))

/-! ## The process-wide design state -/

/-- The process-wide mutable state the DSL writes to: the lazily created
registry `design.Design.MediaTypes` (a nil map reads as the empty list) and
the synthetic-name counter `mediaTypeCount`. -/
structure DesignState : Type where
  MediaTypes : List (String × MediaTypeDefinition)
  mediaTypeCount : Nat

/-- Modelled from the spec: `design.NewMediaTypeDefinition` builds a fresh
definition with the given type name and identifier and empty attribute,
view and link maps; its DSL block runs in a later phase, outside this core. -/
def newMediaTypeDefinition (typeName identifier : String) : MediaTypeDefinition :=
  .mk typeName identifier (.mk (.object []) none) [] []

/-! ## `MediaType` (lines 58–92)

The `topLevelDefinition(true)` context guard is assumed to hold (the call
appears at the top level of a design); the declaration's DSL block is
stored on the definition and run by the later, out-of-scope phase. -/

/-- `MediaType` (lines 58–92), acting on the parser's outcome for the
identifier argument. Returns the handle (`nil` embedded as `none`), the
updated design state, and the diagnostics reported. -/
def MediaType (parsed : ParseOut) (st : DesignState) :
    Option MediaTypeDefinition × DesignState × List DSLError :=
  let (mediatype, params, perr) := parsed.components
  let errs0 := if perr then [DSLError.invalidIdentifier mediatype] else []
  let identifier := normalizeIdentifier mediatype params
  let typeName0 := deriveTypeName identifier
  let count := if typeName0 == "" then st.mediaTypeCount + 1 else st.mediaTypeCount
  let typeName := if typeName0 == "" then "MediaType" ++ toString count else typeName0
  if (alookup st.MediaTypes identifier).isSome then
    (none, ⟨st.MediaTypes, count⟩, errs0 ++ [DSLError.duplicateMediaType identifier])
  else
    let mt := newMediaTypeDefinition typeName identifier
    (some mt, ⟨ainsert st.MediaTypes identifier mt, count⟩, errs0)

/-! ## `Media` (lines 102–112) -/

/-- The dynamic `interface{}` argument of `Media`: a media-type handle, an
identifier string, or a value of any other kind. -/
inductive MediaVal : Type where
  | handle (m : MediaTypeDefinition)
  | str (s : String)
  | other

/-- The slice of `design.ResponseDefinition` that `Media` touches. Modelled
from the spec: the active response definition with its media type field. -/
structure ResponseDefinition : Type where
  MediaType : String

/-- `Media` (lines 102–112), inside an active response definition
(`responseDefinition(true)` assumed to hold). -/
def Media (val : MediaVal) (r : ResponseDefinition) :
    ResponseDefinition × List DSLError :=
  match val with
  | .handle m => ({ r with MediaType := m.identifier }, [])
  | .str s => ({ r with MediaType := s }, [])
  | .other => (r, [DSLError.invalidMediaArgument])

/-! ## `Link` (lines 258–279) -/

/-- `Link` (lines 258–279), inside a media type definition
(`mediaTypeDefinition(true)` assumed to hold); `view` embeds the variadic
`view ...string` argument. -/
def Link (name : String) (view : List String) (mt : MediaTypeDefinition) :
    MediaTypeDefinition × List DSLError :=
  if (alookup mt.links name).isSome then
    (mt, [DSLError.duplicateLink name])
  else
    let errs := if view.length > 1 then [DSLError.invalidLinkUsage name] else []
    let lview := match view with
      | v :: _ => v
      | [] => "link"
    (mt.withLinks (ainsert mt.links name ⟨name, lview, mt.identifier⟩), errs)

/-! ## `View` (lines 179–236)

Only the media-type branch (`mediaTypeDefinition(false)` succeeding) is
embedded; the attribute-definition fallback branch merely records a
view-name override on the current attribute and is not touched by any
claim. The block argument embeds the variadic `dsl ...func()`: `some`
carries the outcome of `executeDSL(dsl[0], at)` — the success flag it
returns and the attribute node the block built. -/

/-- `media_type.go:213-218`: the object the view's names are resolved
against — the media type's own object, falling back to the array element's
object when the root is array-of-element (a nil object reads as the empty
map, matching Go's nil-map lookups). -/
def viewTargetObject (mt : MediaTypeDefinition) :
    List (String × AttributeDefinition) :=
  match mt.attr.type.ToObject with
  | some o => o
  | none =>
    match mt.attr.type.ToArray with
    | some (some elem) => elem.type.ToObject.getD []
    | _ => []

/-- `media_type.go:219-225`, the replacements: each name found in the target
object `mto` has its placeholder replaced by the authoritative attribute;
a name not found keeps its placeholder. -/
def resolveAttrNames (o mto : List (String × AttributeDefinition)) :
    List (String × AttributeDefinition) :=
  o.map (fun p =>
    match alookup mto p.1 with
    | some existing => (p.1, existing)
    | none => p)

/-- `media_type.go:219-225`, the diagnostics: one `UnknownAttribute` per
name absent from the target object, the synthetic name "links" excepted. -/
def unknownAttrErrors (o mto : List (String × AttributeDefinition)) :
    List DSLError :=
  (o.filter (fun p => (alookup mto p.1).isNone && p.1 != "links")).map
    (fun p => DSLError.unknownAttribute p.1)

/-- `View` (lines 179–236), media-type branch. -/
def View (name : String) (block : Option (Bool × AttributeDefinition))
    (mt : MediaTypeDefinition) : MediaTypeDefinition × List DSLError :=
  if !mt.attr.type.IsObject && !mt.attr.type.IsArray then
    (mt, [DSLError.unsupportedViewTarget])
  else if (alookup mt.views name).isSome then
    (mt, [DSLError.duplicateView name mt.typeName])
  else
    -- `at := &AttributeDefinition{}; ok := false`, then the block /
    -- element-inheritance paths (lines 193–211).
    let built : Option AttributeDefinition × List DSLError :=
      match block with
      | some (okFlag, a0) => (if okFlag then some a0 else none, [])
      | none =>
        if mt.attr.type.IsArray then
          match mt.attr.type.ToArray with
          | some (some elem) =>
            match elem.type with
            | .mediaType pa =>
              match alookup pa.views name with
              | some v => (some v.attr, [])
              | none => (none, [DSLError.unknownView name])
            | _ => (none, [])
          | _ => (none, [])
        else (none, [])
    match built with
    | (some a0, errs) =>
      -- lines 212–231: resolve the built names, then store the view.
      let resolved : AttributeDefinition × List DSLError :=
        match a0.type with
        | .object o =>
          let mto := viewTargetObject mt
          (.mk (.object (resolveAttrNames o mto)) a0.view, unknownAttrErrors o mto)
        | _ => (a0, [])
      (mt.withViews (ainsert mt.views name ⟨resolved.1, name, mt.identifier⟩),
       errs ++ resolved.2)
    | (none, errs) => (mt, errs)

/-! ## `CollectionOf` (lines 286–322) -/

/-- `media_type.go:297-306`: the collection's parameter map — scan for a
`type` parameter and inject `type=collection` only when none is present. -/
def collectionParams (params : Params) : Params :=
  if params.any (fun p => p.1 == "type") then params
  else ainsert params "type" "collection"

/-- `ArrayOf(m)`: the array-of-element root whose element type is the media
type `m`. Modelled from the spec (§4.6). -/
def arrayOfMediaType (m : MediaTypeDefinition) : AttributeDefinition :=
  .mk (.array (some (.mk (.mediaType m) none))) none

/-- `CollectionOf` (lines 286–322), acting on the parser's outcome for the
element's identifier. The constructor's DSL closure — run immediately via
`executeDSL(mt.DSL, mt)` — sets the type name and the array root and then
runs the caller's optional block, embedded as `userDsl`; `executeDSL` is
assumed to succeed, so the derived definition is registered through the
registry's overwrite path. -/
def CollectionOf (m : MediaTypeDefinition) (parsed : ParseOut)
    (userDsl : Option (MediaTypeDefinition → MediaTypeDefinition))
    (st : DesignState) :
    Option MediaTypeDefinition × DesignState × List DSLError :=
  match parsed with
  | .err => (none, st, [DSLError.invalidIdentifier m.identifier])
  | .ok mediatype params =>
    let mtype := addDefaultSubtype mediatype
    let id := formatMediaType mtype (collectionParams params)
    let typeName := m.typeName ++ "Collection"
    let base : MediaTypeDefinition :=
      .mk typeName id (arrayOfMediaType m) [] []
    let mt := match userDsl with
      | some f => f base
      | none => base
    (some mt, ⟨ainsert st.MediaTypes id mt, st.mediaTypeCount⟩, [])

/-! ## Concrete fixtures used by witnesses and counterexamples -/

/-- An integer attribute, as declared by `Attribute("id", Integer)`. -/
def attrId : AttributeDefinition := .mk (.primitive "Integer") none

/-- A string attribute, as declared by `Attribute("href", String)`. -/
def attrHref : AttributeDefinition := .mk (.primitive "String") none

/-- The fresh placeholder node a view block builds for a name-only
attribute. -/
def placeholderAttr : AttributeDefinition := .mk (.primitive "") none

/-- A media type with object root `{id, href}` and no views or links. -/
def bottle : MediaTypeDefinition :=
  .mk "Bottle" "application/vnd.bottle" (.mk (.object [("id", attrId), ("href", attrHref)]) none) [] []

/-- `bottle` with a "default" view rendering `id`. -/
def bottleV : MediaTypeDefinition :=
  .mk "Bottle" "application/vnd.bottle"
    (.mk (.object [("id", attrId), ("href", attrHref)]) none)
    [("default", .mk (.mk (.object [("id", attrId)]) none) "default" "application/vnd.bottle")]
    []

/-- A collection media type whose element type is `bottleV`. -/
def bottleColl : MediaTypeDefinition :=
  .mk "BottleCollection" "application/vnd.bottle;type=collection"
    (arrayOfMediaType bottleV) [] []

/-- A media type with a scalar (string) root. -/
def scalarMedia : MediaTypeDefinition :=
  .mk "Scalar" "application/vnd.scalar" (.mk (.primitive "String") none) [] []

/-- A design state already holding `bottle` under its canonical identifier. -/
def stOne : DesignState := ⟨[("application/vnd.bottle", bottle)], 0⟩

/-- The empty design state. -/
def stEmpty : DesignState := ⟨[], 0⟩

/-! ## Projection equations on constructors -/

@[simp] theorem AttributeDefinition.type_mk (t : DataType) (v : Option String) :
    (AttributeDefinition.mk t v).type = t := rfl

@[simp] theorem AttributeDefinition.view_mk (t : DataType) (v : Option String) :
    (AttributeDefinition.mk t v).view = v := rfl

@[simp] theorem ViewDefinition.attr_mk (a : AttributeDefinition) (n p : String) :
    (ViewDefinition.mk a n p).attr = a := rfl

@[simp] theorem MediaTypeDefinition.views_mk (tn id : String)
    (a : AttributeDefinition) (vs : List (String × ViewDefinition))
    (ls : List (String × LinkDefinition)) :
    (MediaTypeDefinition.mk tn id a vs ls).views = vs := rfl

@[simp] theorem MediaTypeDefinition.links_mk (tn id : String)
    (a : AttributeDefinition) (vs : List (String × ViewDefinition))
    (ls : List (String × LinkDefinition)) :
    (MediaTypeDefinition.mk tn id a vs ls).links = ls := rfl

/-! ## Association-list lemmas -/

theorem alookup_ainsert_self {α : Type} (l : List (String × α)) (k : String) (v : α) :
    alookup (ainsert l k v) k = some v := by
  induction l with
  | nil => simp [ainsert, alookup]
  | cons p rest ih =>
    by_cases h : p.1 == k
    · simp [ainsert, alookup, h]
    · simp only [ainsert, alookup]
      rw [if_neg (by simpa using h), alookup, if_neg (by simpa using h)]
      exact ih

theorem alookup_mem {α : Type} {l : List (String × α)} {k : String} {v : α}
    (h : alookup l k = some v) : (k, v) ∈ l := by
  induction l with
  | nil => simp [alookup] at h
  | cons p rest ih =>
    simp only [alookup] at h
    by_cases hk : p.1 == k
    · rw [if_pos hk] at h
      have : p = (k, v) := by
        obtain ⟨p1, p2⟩ := p
        simp at hk h
        simp [hk, h]
      simp [this]
    · rw [if_neg hk] at h
      exact List.mem_cons_of_mem _ (ih h)

theorem any_key_of_alookup_some {α : Type} {l : List (String × α)} {k : String} {v : α}
    (h : alookup l k = some v) : l.any (fun p => p.1 == k) = true := by
  induction l with
  | nil => simp [alookup] at h
  | cons p rest ih =>
    simp only [alookup] at h
    by_cases hk : p.1 == k
    · simp [List.any, hk]
    · rw [if_neg hk] at h
      simp [List.any, ih h]

theorem any_key_of_alookup_none {α : Type} {l : List (String × α)} {k : String}
    (h : alookup l k = none) : l.any (fun p => p.1 == k) = false := by
  induction l with
  | nil => simp
  | cons p rest ih =>
    simp only [alookup] at h
    by_cases hk : p.1 == k
    · rw [if_pos hk] at h
      exact absurd h (by simp)
    · rw [if_neg hk] at h
      simp [List.any, ih h, hk]

/-! ## Resolution lemmas -/

theorem resolveAttrNames_found {o mto : List (String × AttributeDefinition)}
    {n : String} {a ex : AttributeDefinition}
    (ho : alookup o n = some a) (hm : alookup mto n = some ex) :
    alookup (resolveAttrNames o mto) n = some ex := by
  induction o with
  | nil => simp [alookup] at ho
  | cons p rest ih =>
    simp only [alookup] at ho
    by_cases hk : p.1 == n
    · have hn : p.1 = n := by simpa using hk
      simp only [resolveAttrNames, List.map, alookup, hn, hm]
      simp
    · rw [if_neg hk] at ho
      simp only [resolveAttrNames, List.map, alookup] at ih ⊢
      rcases h2 : alookup mto p.1 with _ | ex2 <;>
        simp only [h2, if_neg hk] <;> exact ih ho

theorem resolveAttrNames_notfound {o mto : List (String × AttributeDefinition)}
    {n : String} {a : AttributeDefinition}
    (ho : alookup o n = some a) (hm : alookup mto n = none) :
    alookup (resolveAttrNames o mto) n = some a := by
  induction o with
  | nil => simp [alookup] at ho
  | cons p rest ih =>
    simp only [alookup] at ho
    by_cases hk : p.1 == n
    · have hn : p.1 = n := by simpa using hk
      rw [if_pos hk] at ho
      simp only [resolveAttrNames, List.map, alookup, hn, hm]
      simpa using ho
    · rw [if_neg hk] at ho
      simp only [resolveAttrNames, List.map, alookup] at ih ⊢
      rcases h2 : alookup mto p.1 with _ | ex2 <;>
        simp only [h2, if_neg hk] <;> exact ih ho

theorem unknownAttrErrors_mem {o mto : List (String × AttributeDefinition)}
    {n : String} {a : AttributeDefinition}
    (ho : alookup o n = some a) (hm : alookup mto n = none) (hn : n ≠ "links") :
    DSLError.unknownAttribute n ∈ unknownAttrErrors o mto := by
  have hmem : (n, a) ∈ o := alookup_mem ho
  have hfil : (n, a) ∈ o.filter (fun p => (alookup mto p.1).isNone && p.1 != "links") := by
    rw [List.mem_filter]
    refine ⟨hmem, ?_⟩
    simp [hm, hn]
  exact List.mem_map.2 ⟨(n, a), hfil, rfl⟩

/-! ## Root-kind exclusion: an object root is never an array root -/

theorem DataType.toArray_eq_none_of_toObject :
    ∀ t : DataType, t.ToObject.isSome = true → t.ToArray = none
  | .object _, _ => rfl
  | .mediaType (.mk _ _ (.mk t _) _ _), h =>
    DataType.toArray_eq_none_of_toObject t h
  | .primitive _, h => by simp [DataType.ToObject] at h
  | .array _, h => by simp [DataType.ToObject] at h

/-! ## The claims -/

/-- Claim C9: inside a response definition, `Media` sets the response's media
type to the handle's identifier when given a media-type handle and to the
string itself when given a string; for a value of any other kind it reports
`InvalidArgument` and leaves the response's media type unchanged. -/
theorem claim_C9 (m : MediaTypeDefinition) (s : String) (r : ResponseDefinition) :
    Media (.handle m) r = ({ r with MediaType := m.identifier }, []) ∧
    Media (.str s) r = ({ r with MediaType := s }, []) ∧
    Media .other r = (r, [DSLError.invalidMediaArgument]) :=
  ⟨rfl, rfl, rfl⟩

/-- Claim C6: `Link` with one argument stores a `LinkDefinition` whose view
is "link"; with an explicit second argument it stores that view; and a
second `Link` call with an already-registered name on the same media type
reports `DuplicateDefinition` and leaves the first `LinkDefinition`
unchanged. -/
theorem claim_C6 (mt : MediaTypeDefinition) (name v : String) :
    (alookup mt.links name = none →
      Link name [] mt =
        (mt.withLinks (ainsert mt.links name ⟨name, "link", mt.identifier⟩), []) ∧
      Link name [v] mt =
        (mt.withLinks (ainsert mt.links name ⟨name, v, mt.identifier⟩), [])) ∧
    (∀ l0, alookup mt.links name = some l0 → ∀ views,
      Link name views mt = (mt, [DSLError.duplicateLink name]) ∧
      alookup (Link name views mt).1.links name = some l0) := by
  constructor
  · intro h
    constructor <;> simp [Link, h]
  · intro l0 h views
    constructor <;> simp [Link, h]

/-- Witness for C6 at `bottle`: `Link("origin")` stores view "link",
`Link("account", "tiny")` stores view "tiny", and repeating
`Link("account", ...)` reports the duplicate and keeps the first link. -/
theorem claim_C6_witness :
    Link "origin" [] bottle =
      (bottle.withLinks (ainsert bottle.links "origin" ⟨"origin", "link", bottle.identifier⟩), []) ∧
    Link "account" ["tiny"] bottle =
      (bottle.withLinks (ainsert bottle.links "account" ⟨"account", "tiny", bottle.identifier⟩), []) ∧
    Link "account" ["other"] (Link "account" ["tiny"] bottle).1 =
      ((Link "account" ["tiny"] bottle).1, [DSLError.duplicateLink "account"]) ∧
    alookup (Link "account" ["other"] (Link "account" ["tiny"] bottle).1).1.links "account" =
      some ⟨"account", "tiny", bottle.identifier⟩ :=
  ⟨((claim_C6 bottle "origin" "x").1 rfl).1,
   ((claim_C6 bottle "account" "tiny").1 rfl).2,
   ((claim_C6 (Link "account" ["tiny"] bottle).1 "account" "x").2
      ⟨"account", "tiny", bottle.identifier⟩ rfl ["other"]).1,
   ((claim_C6 (Link "account" ["tiny"] bottle).1 "account" "x").2
      ⟨"account", "tiny", bottle.identifier⟩ rfl ["other"]).2⟩

/-- Claim C7: a `Link` call supplying more than one view argument (with a
name not already registered) reports `InvalidLinkSyntax`, yet the link is
still registered using the first supplied view argument. -/
theorem claim_C7 (mt : MediaTypeDefinition) (name v1 v2 : String)
    (rest : List String) (hfresh : alookup mt.links name = none) :
    Link name (v1 :: v2 :: rest) mt =
      (mt.withLinks (ainsert mt.links name ⟨name, v1, mt.identifier⟩),
       [DSLError.invalidLinkUsage name]) := by
  simp [Link, hfresh]

/-- Witness for C7: `Link("account", "tiny", "small")` on `bottle` reports
the syntax error and still stores view "tiny". -/
theorem claim_C7_witness :
    Link "account" ["tiny", "small"] bottle =
      (bottle.withLinks (ainsert bottle.links "account" ⟨"account", "tiny", bottle.identifier⟩),
       [DSLError.invalidLinkUsage "account"]) :=
  claim_C7 bottle "account" "tiny" "small" [] rfl

/-- Claim C8: on a media type whose root type is neither object-of-attributes
nor array-of-element, every `View` call reports `UnsupportedViewTarget` and
adds no view, leaving the media type (and so its view map) unchanged. -/
theorem claim_C8 (mt : MediaTypeDefinition)
    (hobj : mt.attr.type.IsObject = false) (harr : mt.attr.type.IsArray = false)
    (name : String) (block : Option (Bool × AttributeDefinition)) :
    View name block mt = (mt, [DSLError.unsupportedViewTarget]) := by
  simp [View, hobj, harr]

/-- Witness for C8: a view on the scalar-rooted `scalarMedia` is rejected. -/
theorem claim_C8_witness :
    View "default" none scalarMedia = (scalarMedia, [DSLError.unsupportedViewTarget]) :=
  claim_C8 scalarMedia rfl rfl "default" none

/-- Counterexample to C10 as stated: on `bottleV` (object root) the name
"default" is already a view, so `View "default"` with no block reports a
`DuplicateDefinition` diagnostic — not "no diagnostic at all". -/
theorem claim_C10_cex :
    bottleV.attr.type.IsObject = true ∧
    (View "default" none bottleV).2 = [DSLError.duplicateView "default" "Bottle"] ∧
    (View "default" none bottleV).2 ≠ [] := by
  refine ⟨rfl, rfl, ?_⟩
  rw [show (View "default" none bottleV).2 = [DSLError.duplicateView "default" "Bottle"] from rfl]
  simp

/-- Claim C10 (amended): on a media type whose root type is
object-of-attributes, calling `View` with a name not already registered as a
view and no configuration block adds no view under that name and reports no
diagnostic at all. -/
theorem claim_C10 (mt : MediaTypeDefinition) (name : String)
    (hobj : mt.attr.type.IsObject = true)
    (hfresh : alookup mt.views name = none) :
    View name none mt = (mt, []) := by
  have harr : mt.attr.type.ToArray = none :=
    DataType.toArray_eq_none_of_toObject _ hobj
  simp [View, DataType.IsArray, hobj, hfresh, harr]

/-- Witness for C10 (amended): a block-less view with a fresh name on
`bottle` is a silent no-op. -/
theorem claim_C10_witness : View "tiny" none bottle = (bottle, []) :=
  claim_C10 bottle "tiny" rfl rfl

/-- Claim C1: when a media type is already registered under the canonical
form of an identifier, a second `MediaType` call whose identifier normalizes
to that same canonical form reports `DuplicateDefinition`, returns no handle,
and leaves the registry unchanged, still holding the first definition. -/
theorem claim_C1 (mediatype : String) (params : Params) (st : DesignState)
    (mt0 : MediaTypeDefinition)
    (h : alookup st.MediaTypes (normalizeIdentifier mediatype params) = some mt0) :
    (MediaType (.ok mediatype params) st).1 = none ∧
    (MediaType (.ok mediatype params) st).2.1.MediaTypes = st.MediaTypes ∧
    alookup (MediaType (.ok mediatype params) st).2.1.MediaTypes
      (normalizeIdentifier mediatype params) = some mt0 ∧
    (MediaType (.ok mediatype params) st).2.2 =
      [DSLError.duplicateMediaType (normalizeIdentifier mediatype params)] := by
  have hsome : (alookup st.MediaTypes (normalizeIdentifier mediatype params)).isSome = true := by
    simp [h]
  refine ⟨?_, ?_, ?_, ?_⟩ <;> simp [MediaType, ParseOut.components, hsome, h]

/-- Witness for C1: with `bottle` registered under
"application/vnd.bottle", a second declaration normalizing to the same
canonical identifier is rejected and the registry still holds `bottle`. -/
theorem claim_C1_witness :
    alookup stOne.MediaTypes (normalizeIdentifier "application/vnd.bottle" []) = some bottle ∧
    (MediaType (.ok "application/vnd.bottle" []) stOne).1 = none ∧
    (MediaType (.ok "application/vnd.bottle" []) stOne).2.1.MediaTypes = stOne.MediaTypes ∧
    alookup (MediaType (.ok "application/vnd.bottle" []) stOne).2.1.MediaTypes
      (normalizeIdentifier "application/vnd.bottle" []) = some bottle ∧
    (MediaType (.ok "application/vnd.bottle" []) stOne).2.2 =
      [DSLError.duplicateMediaType (normalizeIdentifier "application/vnd.bottle" [])] :=
  ⟨rfl,
   (claim_C1 "application/vnd.bottle" [] stOne bottle rfl).1,
   (claim_C1 "application/vnd.bottle" [] stOne bottle rfl).2.1,
   (claim_C1 "application/vnd.bottle" [] stOne bottle rfl).2.2.1,
   (claim_C1 "application/vnd.bottle" [] stOne bottle rfl).2.2.2⟩

/-- Claim C2 (code bug): on a malformed identifier the parser fails with its
zero values, and `MediaType` reports `InvalidIdentifier` — but then falls
through instead of returning: evaluated on the empty design state it
synthesizes the name "MediaType1", registers a definition under the mangled
identifier "" and returns that handle, contradicting the specified
"returns nil, registering nothing". -/
theorem claim_C2 :
    (MediaType .err stEmpty).2.2 = [DSLError.invalidIdentifier ""] ∧
    (MediaType .err stEmpty).1 = some (newMediaTypeDefinition "MediaType1" "") ∧
    (MediaType .err stEmpty).2.1.MediaTypes =
      [("", newMediaTypeDefinition "MediaType1" "")] :=
  ⟨rfl, rfl, rfl⟩

/-- Claim C3: `CollectionOf` on a media type with a parseable identifier
yields a definition named `m.typeName ++ "Collection"` whose root is
array-of-`m` and whose identifier is formatted from the element's parameters
with a `type` parameter: `type=collection` is injected when absent, and an
existing `type` parameter leaves the parameter map untouched (preserved
verbatim). -/
theorem claim_C3 (m : MediaTypeDefinition) (mediatype : String) (params : Params)
    (st : DesignState) :
    (CollectionOf m (.ok mediatype params) none st).1 =
      some (.mk (m.typeName ++ "Collection")
        (formatMediaType (addDefaultSubtype mediatype) (collectionParams params))
        (arrayOfMediaType m) [] []) ∧
    (alookup params "type" = none →
      alookup (collectionParams params) "type" = some "collection") ∧
    (∀ val, alookup params "type" = some val → collectionParams params = params) := by
  refine ⟨rfl, ?_, ?_⟩
  · intro h
    have hany : params.any (fun p => p.1 == "type") = false := any_key_of_alookup_none h
    simp [collectionParams, hany, alookup_ainsert_self]
  · intro val h
    have hany : params.any (fun p => p.1 == "type") = true := any_key_of_alookup_some h
    simp [collectionParams, hany]

/-- Witness for C3: without a `type` parameter `type=collection` is injected
and the derived name is "BottleCollection"; with `type=custom` the parameter
map is preserved verbatim. -/
theorem claim_C3_witness :
    alookup ([] : Params) "type" = none ∧
    alookup (collectionParams ([] : Params)) "type" = some "collection" ∧
    alookup [("type", "custom")] "type" = some "custom" ∧
    collectionParams [("type", "custom")] = [("type", "custom")] ∧
    (CollectionOf bottle (.ok "application/vnd.bottle" []) none stEmpty).1 =
      some (.mk ("Bottle" ++ "Collection")
        (formatMediaType (addDefaultSubtype "application/vnd.bottle") (collectionParams []))
        (arrayOfMediaType bottle) [] []) :=
  ⟨rfl,
   (claim_C3 bottle "application/vnd.bottle" [] stEmpty).2.1 rfl,
   rfl,
   (claim_C3 bottle "application/vnd.bottle" [("type", "custom")] stEmpty).2.2 "custom" rfl,
   (claim_C3 bottle "application/vnd.bottle" [] stEmpty).1⟩

/-- Claim C4: a view built from a block on a media type is stored with every
listed name resolved against the owning type's object attributes — the
media type's own object, or the array element's object when the root is
array-of-element — replacing the placeholder by the authoritative attribute
definition itself; a name that is not found and is not the synthetic "links"
is reported as `UnknownAttribute` non-fatally: its placeholder entry stays,
every other name is still processed, and the view is still stored. -/
theorem claim_C4 (mt : MediaTypeDefinition) (name : String)
    (o : List (String × AttributeDefinition)) (vw : Option String)
    (hroot : mt.attr.type.IsObject = true ∨ mt.attr.type.IsArray = true)
    (hfresh : alookup mt.views name = none) :
    View name (some (true, .mk (.object o) vw)) mt =
      (mt.withViews (ainsert mt.views name
        ⟨.mk (.object (resolveAttrNames o (viewTargetObject mt))) vw, name, mt.identifier⟩),
       unknownAttrErrors o (viewTargetObject mt)) ∧
    (∀ o2, mt.attr.type.ToObject = some o2 → viewTargetObject mt = o2) ∧
    (∀ elem, mt.attr.type.ToObject = none → mt.attr.type.ToArray = some (some elem) →
      viewTargetObject mt = elem.type.ToObject.getD []) ∧
    (∀ n a ex, alookup o n = some a → alookup (viewTargetObject mt) n = some ex →
      alookup (resolveAttrNames o (viewTargetObject mt)) n = some ex) ∧
    (∀ n a, alookup o n = some a → alookup (viewTargetObject mt) n = none →
      alookup (resolveAttrNames o (viewTargetObject mt)) n = some a ∧
      (n ≠ "links" →
        DSLError.unknownAttribute n ∈
          (View name (some (true, .mk (.object o) vw)) mt).2)) := by
  have hV : View name (some (true, .mk (.object o) vw)) mt =
      (mt.withViews (ainsert mt.views name
        ⟨.mk (.object (resolveAttrNames o (viewTargetObject mt))) vw, name, mt.identifier⟩),
       unknownAttrErrors o (viewTargetObject mt)) := by
    rcases hroot with h | h <;> simp [View, h, hfresh]
  refine ⟨hV, ?_, ?_, ?_, ?_⟩
  · intro o2 h2
    simp [viewTargetObject, h2]
  · intro elem h2 h3
    simp [viewTargetObject, h2, h3]
  · intro n a ex ho hm
    exact resolveAttrNames_found ho hm
  · intro n a ho hm
    refine ⟨resolveAttrNames_notfound ho hm, fun hn => ?_⟩
    rw [hV]
    exact unknownAttrErrors_mem ho hm hn

/-- Witness for C4 at `bottle`: a view listing `id` and the undeclared
`bogus` is stored with `id` resolved to the authoritative attribute, the
`bogus` placeholder kept, and `UnknownAttribute "bogus"` reported. -/
theorem claim_C4_witness :
    View "default"
      (some (true, .mk (.object [("id", placeholderAttr), ("bogus", placeholderAttr)]) none))
      bottle =
      (bottle.withViews (ainsert bottle.views "default"
        ⟨.mk (.object (resolveAttrNames [("id", placeholderAttr), ("bogus", placeholderAttr)]
            (viewTargetObject bottle))) none, "default", bottle.identifier⟩),
       unknownAttrErrors [("id", placeholderAttr), ("bogus", placeholderAttr)]
         (viewTargetObject bottle)) ∧
    alookup (resolveAttrNames [("id", placeholderAttr), ("bogus", placeholderAttr)]
      (viewTargetObject bottle)) "id" = some attrId ∧
    alookup (resolveAttrNames [("id", placeholderAttr), ("bogus", placeholderAttr)]
      (viewTargetObject bottle)) "bogus" = some placeholderAttr ∧
    DSLError.unknownAttribute "bogus" ∈
      (View "default"
        (some (true, .mk (.object [("id", placeholderAttr), ("bogus", placeholderAttr)]) none))
        bottle).2 :=
  ⟨(claim_C4 bottle "default" [("id", placeholderAttr), ("bogus", placeholderAttr)] none
      (Or.inl rfl) rfl).1,
   (claim_C4 bottle "default" [("id", placeholderAttr), ("bogus", placeholderAttr)] none
      (Or.inl rfl) rfl).2.2.2.1 "id" placeholderAttr attrId rfl rfl,
   ((claim_C4 bottle "default" [("id", placeholderAttr), ("bogus", placeholderAttr)] none
      (Or.inl rfl) rfl).2.2.2.2 "bogus" placeholderAttr rfl rfl).1,
   ((claim_C4 bottle "default" [("id", placeholderAttr), ("bogus", placeholderAttr)] none
      (Or.inl rfl) rfl).2.2.2.2 "bogus" placeholderAttr rfl rfl).2 (by simp)⟩

/-- Claim C5: on a collection (array-of-element) media type whose element
type is a media type, `View` with a name and no block copies the element
type's same-named view definition — its attribute re-resolves to itself
against the element's own object — into the collection's views; if the
element type has no view of that name, `UnknownView` is reported and the
collection gains no view under that name. -/
theorem claim_C5 (mt pa : MediaTypeDefinition) (name : String) (ev : Option String)
    (helem : mt.attr.type = .array (some (.mk (.mediaType pa) ev)))
    (hfresh : alookup mt.views name = none) :
    (∀ v vo vview, alookup pa.views name = some v →
      v.attr = .mk (.object vo) vview →
      resolveAttrNames vo (viewTargetObject mt) = vo →
      unknownAttrErrors vo (viewTargetObject mt) = [] →
      View name none mt =
        (mt.withViews (ainsert mt.views name ⟨v.attr, name, mt.identifier⟩), [])) ∧
    (alookup pa.views name = none →
      View name none mt = (mt, [DSLError.unknownView name])) := by
  have hobj : mt.attr.type.ToObject = none := by rw [helem]; rfl
  have harr : mt.attr.type.ToArray = some (some (.mk (.mediaType pa) ev)) := by
    rw [helem]; rfl
  constructor
  · intro v vo vview hv hva hres herr
    simp [View, DataType.IsObject, DataType.IsArray, hobj, harr, hfresh, hv, hva,
      hres, herr]
  · intro hv
    simp [View, DataType.IsObject, DataType.IsArray, hobj, harr, hfresh, hv]

/-- Witness for C5 at `bottleColl` (collection of `bottleV`): a block-less
`View "default"` copies `bottleV`'s "default" view, and `View "missing"`
reports `UnknownView` and adds nothing. -/
theorem claim_C5_witness :
    View "default" none bottleColl =
      (bottleColl.withViews (ainsert bottleColl.views "default"
        ⟨.mk (.object [("id", attrId)]) none, "default", bottleColl.identifier⟩), []) ∧
    View "missing" none bottleColl = (bottleColl, [DSLError.unknownView "missing"]) :=
  ⟨(claim_C5 bottleColl bottleV "default" none rfl rfl).1
      (.mk (.mk (.object [("id", attrId)]) none) "default" "application/vnd.bottle")
      [("id", attrId)] none rfl rfl rfl rfl,
   (claim_C5 bottleColl bottleV "missing" none rfl rfl).2 rfl⟩

end Goa
